import Mathlib

/-!
Verification of the georeferencing/warping core of the ol-ctrl repository.

The numeric code of the repository (gcp-transform.ts and the affine image
overlay module) works on IEEE doubles; here it is embedded over exact
rationals (`ℚ`), the standard idealisation: every arithmetic expression of the
source is translated literally, and floating-point literals such as `1e-12`
and `Number.EPSILON = 2⁻⁵²` become the exact rationals they denote.  The few
places where the source takes a square root (`Math.hypot`, residual norms)
are embedded over `ℝ` with `Real.sqrt`.
-/

set_option maxHeartbeats 1000000

namespace OlCtrl

/-- The six-scalar affine matrix of gcp-transform.ts:
`mapX = a·u + b·v + tx`, `mapY = c·u + d·v + ty`. -/
structure AffineMatrix where
  a : ℚ
  b : ℚ
  tx : ℚ
  c : ℚ
  d : ℚ
  ty : ℚ
deriving DecidableEq, Repr

/-- A ground control point: pixel coordinate, map coordinate, and the
display-only lon/lat pair. -/
structure GCPPoint where
  id : String
  pixel : ℚ × ℚ
  map : ℚ × ℚ
  mapLonLat : ℚ × ℚ
deriving DecidableEq, Repr

def defaultGCP : GCPPoint := ⟨"", (0, 0), (0, 0), (0, 0)⟩

/-- The `1e-12` determinant epsilon used by solveCramer3 and invertAffine. -/
def eps12 : ℚ := 1 / 10 ^ 12

/-- applyAffine of gcp-transform.ts: forward map of a pixel coordinate. -/
def applyAffine (affine : AffineMatrix) (u v : ℚ) : ℚ × ℚ :=
  (affine.a * u + affine.b * v + affine.tx,
   affine.c * u + affine.d * v + affine.ty)

/-- invertAffine of gcp-transform.ts; the thrown error on a near-singular
matrix is embedded as `none`. -/
def invertAffine (affine : AffineMatrix) : Option AffineMatrix :=
  let det := affine.a * affine.d - affine.b * affine.c
  if |det| < eps12 then none
  else
    let ia := affine.d / det
    let ib := -affine.b / det
    let ic := -affine.c / det
    let id' := affine.a / det
    some ⟨ia, ib, -(ia * affine.tx + ib * affine.ty),
          ic, id', -(ic * affine.tx + id' * affine.ty)⟩

/-- A 3×3 matrix, row-major, as built by solveAffineTransform. -/
structure Mat3 where
  m00 : ℚ
  m01 : ℚ
  m02 : ℚ
  m10 : ℚ
  m11 : ℚ
  m12 : ℚ
  m20 : ℚ
  m21 : ℚ
  m22 : ℚ
deriving DecidableEq, Repr

/-- A 3-vector of rationals (a right-hand side or a solution triple). -/
structure Vec3 where
  v0 : ℚ
  v1 : ℚ
  v2 : ℚ
deriving DecidableEq, Repr

/-- The explicit 3×3 determinant of solveCramer3. -/
def det3 (A : Mat3) : ℚ :=
  A.m00 * (A.m11 * A.m22 - A.m12 * A.m21) -
  A.m01 * (A.m10 * A.m22 - A.m12 * A.m20) +
  A.m02 * (A.m10 * A.m21 - A.m11 * A.m20)

/-- Replace column 0 of `A` by `b` (the `Ai[j][0] = b[j]` substitution). -/
def replaceCol0 (A : Mat3) (b : Vec3) : Mat3 :=
  { A with m00 := b.v0, m10 := b.v1, m20 := b.v2 }

/-- Replace column 1 of `A` by `b`. -/
def replaceCol1 (A : Mat3) (b : Vec3) : Mat3 :=
  { A with m01 := b.v0, m11 := b.v1, m21 := b.v2 }

/-- Replace column 2 of `A` by `b`. -/
def replaceCol2 (A : Mat3) (b : Vec3) : Mat3 :=
  { A with m02 := b.v0, m12 := b.v1, m22 := b.v2 }

/-- solveCramer3 of gcp-transform.ts: Cramer's rule on a 3×3 system, failing
(`none`, for the thrown collinearity error) when `|det A| < 1e-12`. -/
def solveCramer3 (A : Mat3) (b : Vec3) : Option Vec3 :=
  if |det3 A| < eps12 then none
  else some ⟨det3 (replaceCol0 A b) / det3 A,
             det3 (replaceCol1 A b) / det3 A,
             det3 (replaceCol2 A b) / det3 A⟩

/-- The coefficient matrix of the exact 3-point branch: rows `[uᵢ, vᵢ, 1]`
for the first three GCPs. -/
def coeffMat (gcps : List GCPPoint) : Mat3 :=
  let g0 := gcps.getD 0 defaultGCP
  let g1 := gcps.getD 1 defaultGCP
  let g2 := gcps.getD 2 defaultGCP
  ⟨g0.pixel.1, g0.pixel.2, 1,
   g1.pixel.1, g1.pixel.2, 1,
   g2.pixel.1, g2.pixel.2, 1⟩

/-- Right-hand side of the 3-point x-system: the map x-coordinates. -/
def coeffVecX (gcps : List GCPPoint) : Vec3 :=
  ⟨(gcps.getD 0 defaultGCP).map.1, (gcps.getD 1 defaultGCP).map.1,
   (gcps.getD 2 defaultGCP).map.1⟩

/-- Right-hand side of the 3-point y-system: the map y-coordinates. -/
def coeffVecY (gcps : List GCPPoint) : Vec3 :=
  ⟨(gcps.getD 0 defaultGCP).map.2, (gcps.getD 1 defaultGCP).map.2,
   (gcps.getD 2 defaultGCP).map.2⟩

/-- The normal matrix `AᵗA` accumulated by the least-squares branch, each
GCP contributing the row `[u, v, 1]`. -/
def normalMat (gcps : List GCPPoint) : Mat3 :=
  ⟨gcps.foldl (fun s g => s + g.pixel.1 * g.pixel.1) 0,
   gcps.foldl (fun s g => s + g.pixel.1 * g.pixel.2) 0,
   gcps.foldl (fun s g => s + g.pixel.1 * 1) 0,
   gcps.foldl (fun s g => s + g.pixel.2 * g.pixel.1) 0,
   gcps.foldl (fun s g => s + g.pixel.2 * g.pixel.2) 0,
   gcps.foldl (fun s g => s + g.pixel.2 * 1) 0,
   gcps.foldl (fun s g => s + 1 * g.pixel.1) 0,
   gcps.foldl (fun s g => s + 1 * g.pixel.2) 0,
   gcps.foldl (fun s _g => s + 1 * 1) 0⟩

/-- The accumulated right-hand side `Aᵗbₓ` of the least-squares x-system. -/
def normalVecX (gcps : List GCPPoint) : Vec3 :=
  ⟨gcps.foldl (fun s g => s + g.pixel.1 * g.map.1) 0,
   gcps.foldl (fun s g => s + g.pixel.2 * g.map.1) 0,
   gcps.foldl (fun s g => s + 1 * g.map.1) 0⟩

/-- The accumulated right-hand side `Aᵗb_y` of the least-squares y-system. -/
def normalVecY (gcps : List GCPPoint) : Vec3 :=
  ⟨gcps.foldl (fun s g => s + g.pixel.1 * g.map.2) 0,
   gcps.foldl (fun s g => s + g.pixel.2 * g.map.2) 0,
   gcps.foldl (fun s g => s + 1 * g.map.2) 0⟩

/-- solveAffineTransform of gcp-transform.ts: exact Cramer solve for 3 GCPs,
normal-equations least squares for 4 or more; all thrown errors are `none`. -/
def solveAffineTransform (gcps : List GCPPoint) : Option AffineMatrix :=
  if gcps.length < 3 then none
  else if gcps.length = 3 then
    (solveCramer3 (coeffMat gcps) (coeffVecX gcps)).elim none fun p =>
      (solveCramer3 (coeffMat gcps) (coeffVecY gcps)).elim none fun q =>
        some ⟨p.v0, p.v1, p.v2, q.v0, q.v1, q.v2⟩
  else
    (solveCramer3 (normalMat gcps) (normalVecX gcps)).elim none fun p =>
      (solveCramer3 (normalMat gcps) (normalVecY gcps)).elim none fun q =>
        some ⟨p.v0, p.v1, p.v2, q.v0, q.v1, q.v2⟩

/-- The determinant of the 3×3 coefficient system that solveAffineTransform
actually solves: the pixel coefficient matrix for exactly 3 GCPs, the normal
matrix `AᵗA` otherwise. -/
def coeffDet (gcps : List GCPPoint) : ℚ :=
  if gcps.length = 3 then det3 (coeffMat gcps) else det3 (normalMat gcps)

/- ===== Fit evaluation (computeAffineFitReport) ===== -/

inductive AffineFitStatus
  | unverifiable3pt
  | verified
deriving DecidableEq, Repr

/-- A per-GCP fit residual (the UI message string of the source is omitted). -/
structure AffineResidual where
  id : String
  errorMeters : ℝ
  observed : ℚ × ℚ
  predicted : ℚ × ℚ

/-- The fit report of gcp-transform.ts (UI message omitted). -/
structure AffineFitReport where
  fitStatus : AffineFitStatus
  rmseMeters : Option ℝ
  maxErrorMeters : Option ℝ
  residuals : List AffineResidual

/-- The residual record computed for one GCP by computeAffineFitReport's
mapping step. -/
noncomputable def residualOf (affine : AffineMatrix) (gcp : GCPPoint) : AffineResidual :=
  let predicted := applyAffine affine gcp.pixel.1 gcp.pixel.2
  let dx := predicted.1 - gcp.map.1
  let dy := predicted.2 - gcp.map.2
  ⟨gcp.id, Real.sqrt ((dx : ℝ) ^ 2 + (dy : ℝ) ^ 2), gcp.map, predicted⟩

/-- computeAffineFitReport of gcp-transform.ts, with residual norms over `ℝ`. -/
noncomputable def computeAffineFitReport (gcps : List GCPPoint)
    (affine : AffineMatrix) : AffineFitReport :=
  if gcps.length ≤ 3 then
    ⟨.unverifiable3pt, none, none, []⟩
  else
    let residuals := gcps.map (residualOf affine)
    let sse := residuals.foldl (fun sum r => sum + r.errorMeters ^ 2) 0
    let rmseMeters := Real.sqrt (sse / residuals.length)
    let maxErrorMeters := residuals.foldl (fun m r => max m r.errorMeters) 0
    ⟨.verified, some rmseMeters, some maxErrorMeters, residuals⟩

/-- Euclidean distance between two rational planar points, as a real. -/
noncomputable def euclidDist (p q : ℚ × ℚ) : ℝ :=
  Real.sqrt (((p.1 - q.1 : ℚ) : ℝ) ^ 2 + ((p.2 - q.2 : ℚ) : ℝ) ^ 2)

/- ===== Validation (validateGCPs) ===== -/

/-- The hard validation errors of validateGCPs; each constructor stands for
one of the source's pushed error messages. -/
inductive GCPError
  | tooFew
  | dupPixel (i j : ℕ)
  | dupMap (i j : ℕ)
  | collinearPixels
deriving DecidableEq, Repr

/-- The non-blocking warnings of validateGCPs. -/
inductive GCPWarning
  | anisotropicScale
deriving DecidableEq, Repr

structure ValidationResult where
  valid : Bool
  errors : List GCPError
  warnings : List GCPWarning
deriving DecidableEq, Repr

/-- Squared Euclidean distance between two rational planar points. -/
def distSq (p q : ℚ × ℚ) : ℚ := (p.1 - q.1) ^ 2 + (p.2 - q.2) ^ 2

/-- The index pairs `(i, j)` with `i < j < n`, in the order of the source's
nested duplicate-check loops. -/
def pairList (n : ℕ) : List (ℕ × ℕ) :=
  (List.range n).flatMap fun i =>
    ((List.range n).filter fun j => i < j).map fun j => (i, j)

/-- The duplicate-pixel errors: the source compares
`sqrt(distSq) < 1`, which (both sides nonnegative) is the same as
`distSq < 1`. -/
def pixelDupErrors (gcps : List GCPPoint) : List GCPError :=
  (pairList gcps.length).filterMap fun p =>
    if distSq (gcps.getD p.1 defaultGCP).pixel (gcps.getD p.2 defaultGCP).pixel < 1 then
      some (.dupPixel p.1 p.2)
    else none

/-- The duplicate-map errors: the source compares `sqrt(distSq) < 0.01`,
i.e. `distSq < 1/10⁴`. -/
def mapDupErrors (gcps : List GCPPoint) : List GCPError :=
  (pairList gcps.length).filterMap fun p =>
    if distSq (gcps.getD p.1 defaultGCP).map (gcps.getD p.2 defaultGCP).map < 1 / 10 ^ 4 then
      some (.dupMap p.1 p.2)
    else none

/-- The collinearity measure of the first three GCP pixels: the absolute
cross-product expression of the source (twice the triangle area). -/
def collinearityArea (gcps : List GCPPoint) : ℚ :=
  let p1 := gcps.getD 0 defaultGCP
  let p2 := gcps.getD 1 defaultGCP
  let p3 := gcps.getD 2 defaultGCP
  |p1.pixel.1 * (p2.pixel.2 - p3.pixel.2) + p2.pixel.1 * (p3.pixel.2 - p1.pixel.2) +
    p3.pixel.1 * (p1.pixel.2 - p2.pixel.2)|

/-- The anisotropic-scale warning: the source compares
`max(sx,sy)/min(sx,sy) > 10` with `sx = sqrt(a²+c²)`, `sy = sqrt(b²+d²)`;
squaring, this is `max(sx²,sy²) > 100·min(sx²,sy²)`, which also matches the
source's float behaviour when one scale is zero (`Infinity > 10` warns,
`NaN > 10` does not). -/
def scaleWarnings (gcps : List GCPPoint) : List GCPWarning :=
  match solveAffineTransform gcps with
  | none => []
  | some affine =>
    let sx2 := affine.a ^ 2 + affine.c ^ 2
    let sy2 := affine.b ^ 2 + affine.d ^ 2
    if 100 * min sx2 sy2 < max sx2 sy2 then [.anisotropicScale] else []

/-- validateGCPs of gcp-transform.ts. -/
def validateGCPs (gcps : List GCPPoint) : ValidationResult :=
  if gcps.length < 3 then ⟨false, [.tooFew], []⟩
  else
    let errors := pixelDupErrors gcps ++ mapDupErrors gcps ++
      (if collinearityArea gcps < 1 then [.collinearPixels] else [])
    ⟨errors.isEmpty, errors, scaleWarnings gcps⟩

/- ===== Image overlay: point-in-polygon and bilinear sampling ===== -/

/-- Number.EPSILON = 2⁻⁵², the fudge the source adds to the edge slope
denominator. -/
def epsJS : ℚ := 1 / 2 ^ 52

/-- The edge list traversed by the ray-casting loop: pairs
`(polygon[i], polygon[j])` with `j = i − 1`, and `j = n − 1` for `i = 0`. -/
def pipEdges (polygon : List (ℚ × ℚ)) : List ((ℚ × ℚ) × (ℚ × ℚ)) :=
  match polygon with
  | [] => []
  | p :: rest => (p :: rest).zip ((p :: rest).getLastD p :: p :: rest)

/-- pointInPolygon of the overlay module: even-odd ray casting.  The strict
float comparisons become rational comparisons; the boolean `!==` of the two
half-plane tests becomes a negated iff; division is total rational division. -/
def pointInPolygon (point : ℚ × ℚ) (polygon : List (ℚ × ℚ)) : Bool :=
  (pipEdges polygon).foldl
    (fun inside e =>
      let xi := e.1.1
      let yi := e.1.2
      let xj := e.2.1
      let yj := e.2.2
      if (¬ ((yi > point.2) ↔ (yj > point.2))) ∧
         point.1 < (xj - xi) * (point.2 - yi) / (yj - yi + epsJS) + xi
      then !inside else inside)
    false

/-- The clamp `max(0, min(srcWidth - 1, u))` of sampleBilinear. -/
def sbX (srcWidth : ℕ) (u : ℚ) : ℚ := max 0 (min ((srcWidth : ℚ) - 1) u)

/-- The clamp `max(0, min(srcHeight - 1, v))` of sampleBilinear. -/
def sbY (srcHeight : ℕ) (v : ℚ) : ℚ := max 0 (min ((srcHeight : ℚ) - 1) v)

/-- The `x0 = floor(x)` grid coordinate of sampleBilinear. -/
def sbX0 (srcWidth : ℕ) (u : ℚ) : ℤ := ⌊sbX srcWidth u⌋

/-- The `y0 = floor(y)` grid coordinate of sampleBilinear. -/
def sbY0 (srcHeight : ℕ) (v : ℚ) : ℤ := ⌊sbY srcHeight v⌋

/-- The `x1 = min(x0 + 1, srcWidth - 1)` grid coordinate of sampleBilinear. -/
def sbX1 (srcWidth : ℕ) (u : ℚ) : ℤ := min (sbX0 srcWidth u + 1) ((srcWidth : ℤ) - 1)

/-- The `y1 = min(y0 + 1, srcHeight - 1)` grid coordinate of sampleBilinear. -/
def sbY1 (srcHeight : ℕ) (v : ℚ) : ℤ := min (sbY0 srcHeight v + 1) ((srcHeight : ℤ) - 1)

/-- The RGBA buffer offset `(y·srcWidth + x)·4` of sampleBilinear. -/
def rgbaIdx (srcWidth : ℕ) (xq yq : ℤ) : ℤ := (yq * srcWidth + xq) * 4

/-- One sampled channel value `srcData[idx + c]` (out-of-range reads default
to 0; the in-bounds theorem shows they never happen). -/
def sbVal (srcData : List ℕ) (srcWidth : ℕ) (xq yq : ℤ) (c : Fin 4) : ℚ :=
  (srcData.getD (rgbaIdx srcWidth xq yq + (c : ℕ)).toNat 0 : ℚ)

/-- sampleBilinear of the overlay module, one channel `c` of the returned
RGBA quadruple. -/
def sampleBilinear (srcData : List ℕ) (srcWidth srcHeight : ℕ) (u v : ℚ)
    (c : Fin 4) : ℚ :=
  let tx := sbX srcWidth u - (sbX0 srcWidth u : ℚ)
  let ty := sbY srcHeight v - (sbY0 srcHeight v : ℚ)
  let v00 := sbVal srcData srcWidth (sbX0 srcWidth u) (sbY0 srcHeight v) c
  let v10 := sbVal srcData srcWidth (sbX1 srcWidth u) (sbY0 srcHeight v) c
  let v01 := sbVal srcData srcWidth (sbX0 srcWidth u) (sbY1 srcHeight v) c
  let v11 := sbVal srcData srcWidth (sbX1 srcWidth u) (sbY1 srcHeight v) c
  let top := v00 * (1 - tx) + v10 * tx
  let bottom := v01 * (1 - tx) + v11 * tx
  top * (1 - ty) + bottom * ty

/- ===== Image overlay: the affine canvas source (warp) ===== -/

/-- An OpenLayers extent `[minX, minY, maxX, maxY]`. -/
structure Extent where
  minX : ℚ
  minY : ℚ
  maxX : ℚ
  maxY : ℚ
deriving DecidableEq, Repr

/-- A decoded raster: dimensions and the row-major RGBA byte buffer. -/
structure Image where
  naturalWidth : ℕ
  naturalHeight : ℕ
  data : List ℕ
deriving DecidableEq, Repr

/-- Bounding box of a ring (OpenLayers `getExtent`); degenerate on an
empty ring, which no caller produces. -/
def ringExtent (ring : List (ℚ × ℚ)) : Extent :=
  match ring with
  | [] => ⟨0, 0, 0, 0⟩
  | p :: rest =>
    rest.foldl
      (fun e q => ⟨min e.minX q.1, min e.minY q.2, max e.maxX q.1, max e.maxY q.2⟩)
      ⟨p.1, p.2, p.1, p.2⟩

/-- The data captured by createAffineCanvasSource for its canvasFunction:
the source raster, the precomputed inverse affine, the footprint ring with
its closing point sliced off, and the ring's bounding box. -/
structure CanvasSrc where
  image : Image
  inverse : AffineMatrix
  polygon : List (ℚ × ℚ)
  polyExtent : Extent
deriving DecidableEq, Repr

/-- createAffineCanvasSource of the overlay module; fails (`none`) exactly
when invertAffine throws on a near-singular matrix. -/
def createAffineCanvasSource (image : Image) (affine : AffineMatrix)
    (ring : List (ℚ × ℚ)) : Option CanvasSrc :=
  (invertAffine affine).map fun inverse =>
    ⟨image, inverse, ring.dropLast, ringExtent ring⟩

/-- Uint8ClampedArray write clamping. -/
def u8c (z : ℤ) : ℤ := min 255 (max 0 z)

/-- One output pixel `(px, py)` of the canvasFunction loop of
createAffineCanvasSource, at a requested extent and output size; skipped
pixels keep the ImageData zero fill `(0,0,0,0)` (fully transparent). -/
def canvasPixel (src : CanvasSrc) (extent : Extent) (width height px py : ℕ) :
    ℤ × ℤ × ℤ × ℤ :=
  let y := extent.maxY - ((py : ℚ) + 1 / 2) * ((extent.maxY - extent.minY) / height)
  let x := extent.minX + ((px : ℚ) + 1 / 2) * ((extent.maxX - extent.minX) / width)
  if x < src.polyExtent.minX ∨ x > src.polyExtent.maxX ∨
     y < src.polyExtent.minY ∨ y > src.polyExtent.maxY then (0, 0, 0, 0)
  else if pointInPolygon (x, y) src.polygon then
    let uv := applyAffine src.inverse x y
    if uv.1 < 0 ∨ uv.1 ≥ (src.image.naturalWidth : ℚ) ∨
       uv.2 < 0 ∨ uv.2 ≥ (src.image.naturalHeight : ℚ) then (0, 0, 0, 0)
    else
      (u8c (round (sampleBilinear src.image.data src.image.naturalWidth
          src.image.naturalHeight uv.1 uv.2 0)),
       u8c (round (sampleBilinear src.image.data src.image.naturalWidth
          src.image.naturalHeight uv.1 uv.2 1)),
       u8c (round (sampleBilinear src.image.data src.image.naturalWidth
          src.image.naturalHeight uv.1 uv.2 2)),
       u8c (round (sampleBilinear src.image.data src.image.naturalWidth
          src.image.naturalHeight uv.1 uv.2 3)))
  else (0, 0, 0, 0)

/-- The per-pixel warp output as claim C1 words it: transparent outside the
even-odd footprint test or outside `[0,W)×[0,H)`, and otherwise the exact
bilinear RGBA scaled by the configured opacity. -/
def specWarpPixelC1 (src : CanvasSrc) (opacity : ℚ) (extent : Extent)
    (width height px py : ℕ) : ℚ × ℚ × ℚ × ℚ :=
  let x := extent.minX + ((px : ℚ) + 1 / 2) * ((extent.maxX - extent.minX) / width)
  let y := extent.maxY - ((py : ℚ) + 1 / 2) * ((extent.maxY - extent.minY) / height)
  let uv := applyAffine src.inverse x y
  if pointInPolygon (x, y) src.polygon = true ∧
     0 ≤ uv.1 ∧ uv.1 < (src.image.naturalWidth : ℚ) ∧
     0 ≤ uv.2 ∧ uv.2 < (src.image.naturalHeight : ℚ) then
    (opacity * sampleBilinear src.image.data src.image.naturalWidth
        src.image.naturalHeight uv.1 uv.2 0,
     opacity * sampleBilinear src.image.data src.image.naturalWidth
        src.image.naturalHeight uv.1 uv.2 1,
     opacity * sampleBilinear src.image.data src.image.naturalWidth
        src.image.naturalHeight uv.1 uv.2 2,
     opacity * sampleBilinear src.image.data src.image.naturalWidth
        src.image.naturalHeight uv.1 uv.2 3)
  else (0, 0, 0, 0)

/-- The per-pixel warp output as the amended claim words it: the pixel is
visible only when its map-space center is inside the footprint's bounding
box, inside the ring under the even-odd test, and inverse-maps into
`[0,W)×[0,H)`; a visible channel is the bilinear value rounded to the
nearest integer and clamped to a byte; no opacity is applied in the warp. -/
def specWarpPixelAmended (src : CanvasSrc) (extent : Extent)
    (width height px py : ℕ) : ℤ × ℤ × ℤ × ℤ :=
  let x := extent.minX + ((px : ℚ) + 1 / 2) * ((extent.maxX - extent.minX) / width)
  let y := extent.maxY - ((py : ℚ) + 1 / 2) * ((extent.maxY - extent.minY) / height)
  let uv := applyAffine src.inverse x y
  if (src.polyExtent.minX ≤ x ∧ x ≤ src.polyExtent.maxX ∧
      src.polyExtent.minY ≤ y ∧ y ≤ src.polyExtent.maxY) ∧
     pointInPolygon (x, y) src.polygon = true ∧
     0 ≤ uv.1 ∧ uv.1 < (src.image.naturalWidth : ℚ) ∧
     0 ≤ uv.2 ∧ uv.2 < (src.image.naturalHeight : ℚ) then
    (u8c (round (sampleBilinear src.image.data src.image.naturalWidth
        src.image.naturalHeight uv.1 uv.2 0)),
     u8c (round (sampleBilinear src.image.data src.image.naturalWidth
        src.image.naturalHeight uv.1 uv.2 1)),
     u8c (round (sampleBilinear src.image.data src.image.naturalWidth
        src.image.naturalHeight uv.1 uv.2 2)),
     u8c (round (sampleBilinear src.image.data src.image.naturalWidth
        src.image.naturalHeight uv.1 uv.2 3)))
  else (0, 0, 0, 0)

/-- The integer RGBA quadruple of the canvas, as rationals, for comparison
with the claimed per-pixel formula. -/
def intQuadToRat (q : ℤ × ℤ × ℤ × ℤ) : ℚ × ℚ × ℚ × ℚ :=
  ((q.1 : ℚ), (q.2.1 : ℚ), (q.2.2.1 : ℚ), (q.2.2.2 : ℚ))

/- ===== Footprint sync (syncImageFromPolygon) ===== -/

/-- Math.hypot over the reals. -/
noncomputable def hypotR (x y : ℚ) : ℝ := Real.sqrt ((x : ℝ) ^ 2 + (y : ℝ) ^ 2)

/-- isParallelogram of the overlay module (tolerance `1e-4`): false for
fewer than 4 corners, else the distance between diagonal midpoint sums,
relative to `max(1, diagonal lengths)`, stays below the tolerance. -/
def isParallelogram (corners : List (ℚ × ℚ)) : Prop :=
  4 ≤ corners.length ∧
  (let p0 := corners.getD 0 (0, 0)
   let p1 := corners.getD 1 (0, 0)
   let p2 := corners.getD 2 (0, 0)
   let p3 := corners.getD 3 (0, 0)
   hypotR (p0.1 + p2.1 - (p1.1 + p3.1)) (p0.2 + p2.2 - (p1.2 + p3.2)) /
     max 1 (hypotR (p2.1 - p0.1) (p2.2 - p0.2) + hypotR (p3.1 - p1.1) (p3.2 - p1.2)) <
     (1 / 10 ^ 4 : ℝ))

/-- The console warnings syncImageFromPolygon can emit: the
non-parallelogram skip and the catch-all sync failure. -/
inductive SyncWarning
  | nonParallelogram
  | syncFailed
deriving DecidableEq, Repr

/-- The module-level mutable state of the overlay module: the loaded image,
the image layer's canvas source, and the current affine matrix. -/
structure OverlayState where
  originalImage : Option Image
  imageLayer : Option CanvasSrc
  currentAffine : Option AffineMatrix
deriving DecidableEq, Repr

/-- The four synthetic correspondences syncImageFromPolygon builds: the
image pixel corners `(0,0), (W,0), (W,H), (0,H)` paired with the edited
polygon's four corners in matching winding order. -/
def syncGCPs (image : Image) (corners : List (ℚ × ℚ)) : List GCPPoint :=
  [⟨"sync-1", (0, 0), corners.getD 0 (0, 0), (0, 0)⟩,
   ⟨"sync-2", ((image.naturalWidth : ℚ), 0), corners.getD 1 (0, 0), (0, 0)⟩,
   ⟨"sync-3", ((image.naturalWidth : ℚ), (image.naturalHeight : ℚ)),
     corners.getD 2 (0, 0), (0, 0)⟩,
   ⟨"sync-4", (0, (image.naturalHeight : ℚ)), corners.getD 3 (0, 0), (0, 0)⟩]

/-- The `corners` local of syncImageFromPolygon: the first four coordinates
of the polygon's outer ring. -/
def syncCorners (rings : List (List (ℚ × ℚ))) : List (ℚ × ℚ) :=
  [(rings.headD []).getD 0 (0, 0), (rings.headD []).getD 1 (0, 0),
   (rings.headD []).getD 2 (0, 0), (rings.headD []).getD 3 (0, 0)]

open Classical in
/-- The body syncImageFromPolygon runs once an image and a layer are
present: ring-length gate, parallelogram gate, solve, and source rebuild. -/
noncomputable def syncCore (image : Image) (st : OverlayState)
    (rings : List (List (ℚ × ℚ))) : OverlayState × Option SyncWarning :=
  if (rings.headD []).length < 5 then (st, none)
  else if isParallelogram (syncCorners rings) then
    (solveAffineTransform (syncGCPs image (syncCorners rings))).elim
      (st, some .syncFailed) fun affine =>
        (createAffineCanvasSource image affine (rings.headD [])).elim
          (st, some .syncFailed) fun src =>
            ({ st with imageLayer := some src, currentAffine := some affine }, none)
  else (st, some .nonParallelogram)

/-- syncImageFromPolygon of the overlay module; the returned option is the
console warning it would emit (the caught solve/create exception becomes
`syncFailed`), together with the updated module state. -/
noncomputable def syncImageFromPolygon (st : OverlayState)
    (rings : List (List (ℚ × ℚ))) : OverlayState × Option SyncWarning :=
  match st.originalImage, st.imageLayer with
  | some image, some _ => syncCore image st rings
  | _, _ => (st, none)

/-- createProxyPolygonFromAffine of gcp-transform.ts: the image's four pixel
corners mapped through the affine, closed by repeating the first point. -/
def createProxyPolygonFromAffine (affine : AffineMatrix) (imgW imgH : ℕ) :
    List (ℚ × ℚ) :=
  let corners : List (ℚ × ℚ) :=
    [(0, 0), ((imgW : ℚ), 0), ((imgW : ℚ), (imgH : ℚ)), (0, (imgH : ℚ))]
  let mapCorners := corners.map fun c =>
    (affine.a * c.1 + affine.b * c.2 + affine.tx,
     affine.c * c.1 + affine.d * c.2 + affine.ty)
  mapCorners ++ [mapCorners.getD 0 (0, 0)]

/- ===== Claim C3: invert-apply round trip ===== -/

/-- C3.  For every AffineMatrix `M` with `|a·d − b·c| ≥ 1e-12` and every
pixel coordinate `(u,v)`, `invertAffine M` succeeds and applying the inverse
to `applyAffine M (u,v)` returns `(u,v)` (exactly, in the rational model, so
in particular within any epsilon). -/
theorem invertAffine_roundTrip (M : AffineMatrix) (u v : ℚ)
    (hdet : eps12 ≤ |M.a * M.d - M.b * M.c|) :
    ∃ Minv, invertAffine M = some Minv ∧
      applyAffine Minv (applyAffine M u v).1 (applyAffine M u v).2 = (u, v) := by
  have hne : M.a * M.d - M.b * M.c ≠ 0 := by
    have hpos : (0 : ℚ) < |M.a * M.d - M.b * M.c| :=
      lt_of_lt_of_le (by norm_num [eps12]) hdet
    exact abs_pos.mp hpos
  have hinv : invertAffine M =
      some ⟨M.d / (M.a * M.d - M.b * M.c), -M.b / (M.a * M.d - M.b * M.c),
        -(M.d / (M.a * M.d - M.b * M.c) * M.tx +
          -M.b / (M.a * M.d - M.b * M.c) * M.ty),
        -M.c / (M.a * M.d - M.b * M.c), M.a / (M.a * M.d - M.b * M.c),
        -(-M.c / (M.a * M.d - M.b * M.c) * M.tx +
          M.a / (M.a * M.d - M.b * M.c) * M.ty)⟩ := by
    unfold invertAffine
    rw [if_neg (not_lt.mpr hdet)]
  refine ⟨_, hinv, ?_⟩
  unfold applyAffine
  rw [Prod.ext_iff]
  constructor <;> · simp only
                    field_simp
                    ring

/-- Witness for C3 at a concrete invertible matrix and pixel. -/
theorem invertAffine_roundTrip_witness :
    ∃ Minv, invertAffine ⟨2, 0, 3, 0, 2, 4⟩ = some Minv ∧
      applyAffine Minv (applyAffine ⟨2, 0, 3, 0, 2, 4⟩ 1 1).1
        (applyAffine ⟨2, 0, 3, 0, 2, 4⟩ 1 1).2 = (1, 1) :=
  invertAffine_roundTrip ⟨2, 0, 3, 0, 2, 4⟩ 1 1 (by norm_num [eps12])

/-- List shape from a length-3 hypothesis. -/
theorem length_three_shape {α : Type} (l : List α) (h : l.length = 3) :
    ∃ a b c, l = [a, b, c] := by
  rcases l with _ | ⟨a, _ | ⟨b, _ | ⟨c, _ | ⟨d, t⟩⟩⟩⟩ <;>
    first
    | exact ⟨_, _, _, rfl⟩
    | (simp only [List.length_cons, List.length_nil] at h; omega)

/- ===== Claim C4: exact 3-point fit ===== -/

/-- C4.  For every list of exactly 3 GCPs whose pixel coordinates are
non-collinear (coefficient determinant at least 1e-12 in magnitude),
solveAffineTransform succeeds and the returned matrix maps each GCP's pixel
coordinate exactly onto its map coordinate. -/
theorem solveAffineTransform_three_point_exact (gcps : List GCPPoint)
    (h3 : gcps.length = 3) (hdet : eps12 ≤ |det3 (coeffMat gcps)|) :
    ∃ M, solveAffineTransform gcps = some M ∧
      ∀ g ∈ gcps, applyAffine M g.pixel.1 g.pixel.2 = g.map := by
  have hne : det3 (coeffMat gcps) ≠ 0 := by
    have hpos : (0 : ℚ) < |det3 (coeffMat gcps)| :=
      lt_of_lt_of_le (by norm_num [eps12]) hdet
    exact abs_pos.mp hpos
  obtain ⟨g0, g1, g2, rfl⟩ := length_three_shape gcps h3
  have hx : solveCramer3 (coeffMat [g0, g1, g2]) (coeffVecX [g0, g1, g2]) =
      some ⟨det3 (replaceCol0 (coeffMat [g0, g1, g2]) (coeffVecX [g0, g1, g2])) /
              det3 (coeffMat [g0, g1, g2]),
            det3 (replaceCol1 (coeffMat [g0, g1, g2]) (coeffVecX [g0, g1, g2])) /
              det3 (coeffMat [g0, g1, g2]),
            det3 (replaceCol2 (coeffMat [g0, g1, g2]) (coeffVecX [g0, g1, g2])) /
              det3 (coeffMat [g0, g1, g2])⟩ := by
    unfold solveCramer3
    rw [if_neg (not_lt.mpr hdet)]
  have hy : solveCramer3 (coeffMat [g0, g1, g2]) (coeffVecY [g0, g1, g2]) =
      some ⟨det3 (replaceCol0 (coeffMat [g0, g1, g2]) (coeffVecY [g0, g1, g2])) /
              det3 (coeffMat [g0, g1, g2]),
            det3 (replaceCol1 (coeffMat [g0, g1, g2]) (coeffVecY [g0, g1, g2])) /
              det3 (coeffMat [g0, g1, g2]),
            det3 (replaceCol2 (coeffMat [g0, g1, g2]) (coeffVecY [g0, g1, g2])) /
              det3 (coeffMat [g0, g1, g2])⟩ := by
    unfold solveCramer3
    rw [if_neg (not_lt.mpr hdet)]
  have hsolve : solveAffineTransform [g0, g1, g2] =
      some ⟨det3 (replaceCol0 (coeffMat [g0, g1, g2]) (coeffVecX [g0, g1, g2])) /
              det3 (coeffMat [g0, g1, g2]),
            det3 (replaceCol1 (coeffMat [g0, g1, g2]) (coeffVecX [g0, g1, g2])) /
              det3 (coeffMat [g0, g1, g2]),
            det3 (replaceCol2 (coeffMat [g0, g1, g2]) (coeffVecX [g0, g1, g2])) /
              det3 (coeffMat [g0, g1, g2]),
            det3 (replaceCol0 (coeffMat [g0, g1, g2]) (coeffVecY [g0, g1, g2])) /
              det3 (coeffMat [g0, g1, g2]),
            det3 (replaceCol1 (coeffMat [g0, g1, g2]) (coeffVecY [g0, g1, g2])) /
              det3 (coeffMat [g0, g1, g2]),
            det3 (replaceCol2 (coeffMat [g0, g1, g2]) (coeffVecY [g0, g1, g2])) /
              det3 (coeffMat [g0, g1, g2])⟩ := by
    unfold solveAffineTransform
    rw [if_neg (by simp), if_pos (by simp), hx, hy]
    simp only [Option.elim]
  refine ⟨_, hsolve, ?_⟩
  intro g hg
  simp only [List.mem_cons, List.not_mem_nil, or_false] at hg
  rcases hg with rfl | rfl | rfl <;>
  · rw [Prod.ext_iff]
    constructor <;>
    · unfold applyAffine
      simp only
      rw [div_mul_eq_mul_div, div_mul_eq_mul_div, div_add_div_same,
        div_add_div_same, div_eq_iff hne]
      simp only [det3, replaceCol0, replaceCol1, replaceCol2, coeffMat,
        coeffVecX, coeffVecY, List.getD_cons_zero, List.getD_cons_succ]
      ring

/-- Witness for C4 at the identity triangle. -/
theorem solveAffineTransform_three_point_exact_witness :
    ∃ M, solveAffineTransform
      [⟨"1", (0, 0), (0, 0), (0, 0)⟩, ⟨"2", (1, 0), (1, 0), (0, 0)⟩,
       ⟨"3", (0, 1), (0, 1), (0, 0)⟩] = some M ∧
      ∀ g ∈ [(⟨"1", (0, 0), (0, 0), (0, 0)⟩ : GCPPoint),
             ⟨"2", (1, 0), (1, 0), (0, 0)⟩, ⟨"3", (0, 1), (0, 1), (0, 0)⟩],
        applyAffine M g.pixel.1 g.pixel.2 = g.map :=
  solveAffineTransform_three_point_exact _ (by simp)
    (by norm_num [eps12, det3, coeffMat, List.getD_cons_zero, List.getD_cons_succ])

/- ===== Claim C5: determinant invariant of the returned matrix ===== -/

/-- C5 counterexample.  With non-collinear pixels but collinear map
coordinates, solveAffineTransform succeeds yet returns a matrix whose own
determinant `a·d − b·c` is zero, violating the claimed invariant
`|a·d − b·c| ≥ 1e-12`. -/
theorem solveAffineTransform_det_cex :
    solveAffineTransform
      [⟨"1", (0, 0), (0, 0), (0, 0)⟩, ⟨"2", (1, 0), (1, 0), (0, 0)⟩,
       ⟨"3", (0, 1), (2, 0), (0, 0)⟩] = some ⟨1, 2, 0, 0, 0, 0⟩ ∧
    |(1 : ℚ) * 0 - 2 * 0| < eps12 := by
  constructor
  · norm_num [solveAffineTransform, solveCramer3, coeffMat, coeffVecX, coeffVecY,
      det3, replaceCol0, replaceCol1, replaceCol2, eps12,
      List.getD_cons_zero, List.getD_cons_succ]
  · norm_num [eps12]

/-- C5 (amended).  Whenever solveAffineTransform returns a matrix, the
determinant of the 3×3 coefficient system it solved (pixel matrix for 3
GCPs, normal matrix for 4 or more) has magnitude at least 1e-12 — but the
returned matrix's own determinant `a·d − b·c` is not constrained. -/
theorem solveAffineTransform_coeffDet_bound (gcps : List GCPPoint)
    (M : AffineMatrix) (h : solveAffineTransform gcps = some M) :
    3 ≤ gcps.length ∧ eps12 ≤ |coeffDet gcps| := by
  unfold solveAffineTransform at h
  by_cases hlt : gcps.length < 3
  · rw [if_pos hlt] at h
    exact absurd h (by simp)
  · rw [if_neg hlt] at h
    refine ⟨le_of_not_lt hlt, ?_⟩
    unfold coeffDet
    by_cases h3 : gcps.length = 3
    · rw [if_pos h3] at h ⊢
      by_cases hd : |det3 (coeffMat gcps)| < eps12
      · unfold solveCramer3 at h
        rw [if_pos hd] at h
        exact absurd h (by simp)
      · exact le_of_not_lt hd
    · rw [if_neg h3] at h ⊢
      by_cases hd : |det3 (normalMat gcps)| < eps12
      · unfold solveCramer3 at h
        rw [if_pos hd] at h
        exact absurd h (by simp)
      · exact le_of_not_lt hd

/-- Witness for the amended C5 at a concrete successful solve. -/
theorem solveAffineTransform_coeffDet_bound_witness :
    3 ≤ ([⟨"1", (0, 0), (0, 0), (0, 0)⟩, ⟨"2", (1, 0), (1, 0), (0, 0)⟩,
          ⟨"3", (0, 1), (0, 1), (0, 0)⟩] : List GCPPoint).length ∧
    eps12 ≤ |coeffDet [⟨"1", (0, 0), (0, 0), (0, 0)⟩,
      ⟨"2", (1, 0), (1, 0), (0, 0)⟩, ⟨"3", (0, 1), (0, 1), (0, 0)⟩]| :=
  solveAffineTransform_coeffDet_bound _ ⟨1, 0, 0, 0, 1, 0⟩
    (by norm_num [solveAffineTransform, solveCramer3, coeffMat, coeffVecX, coeffVecY,
      det3, replaceCol0, replaceCol1, replaceCol2, eps12,
      List.getD_cons_zero, List.getD_cons_succ])

/-- A left fold of `max` over a list: the result dominates the start and every
element, and is the start or an element. -/
theorem foldl_max_spec (l : List ℝ) (a : ℝ) :
    a ≤ l.foldl max a ∧ (∀ x ∈ l, x ≤ l.foldl max a) ∧
      (l.foldl max a = a ∨ l.foldl max a ∈ l) := by
  induction l generalizing a with
  | nil => simp
  | cons x xs ih =>
    have h := ih (max a x)
    refine ⟨le_trans (le_max_left a x) h.1, ?_, ?_⟩
    · intro y hy
      rcases List.mem_cons.mp hy with h1 | hy
      · rw [h1]
        exact le_trans (le_max_right a x) h.1
      · exact h.2.1 y hy
    · rcases h.2.2 with heq | hmem
      · rcases le_total x a with hxa | hax
        · left
          simp only [List.foldl_cons]
          rw [heq]
          exact max_eq_left hxa
        · right
          simp only [List.foldl_cons]
          rw [heq, max_eq_right hax]
          exact List.mem_cons_self x xs
      · right
        exact List.mem_cons_of_mem x hmem

/-- A left fold of `+` against a mapped list is the sum of the mapped list. -/
theorem foldl_add_map {α : Type} (l : List α) (f : α → ℝ) :
    l.foldl (fun s r => s + f r) 0 = (l.map f).sum := by
  rw [List.sum_eq_foldl, List.foldl_map]

/- ===== Claim C6: fit report contents ===== -/

/-- C6.  computeAffineFitReport returns the Unverifiable report with null
rmse, null maxError and no residuals whenever at most 3 GCPs are given; for
4 or more GCPs it returns Verified with one residual per GCP equal to the
Euclidean distance between the forward-mapped pixel and the observed map
coordinate, rmse the root of the mean squared residual, and maxError the
maximum residual. -/
theorem computeAffineFitReport_spec (gcps : List GCPPoint) (affine : AffineMatrix) :
    (gcps.length ≤ 3 →
      computeAffineFitReport gcps affine = ⟨.unverifiable3pt, none, none, []⟩) ∧
    (4 ≤ gcps.length →
      (computeAffineFitReport gcps affine).fitStatus = .verified ∧
      (computeAffineFitReport gcps affine).residuals.map (fun r => r.errorMeters) =
        gcps.map (fun g => euclidDist (applyAffine affine g.pixel.1 g.pixel.2) g.map) ∧
      (computeAffineFitReport gcps affine).residuals.map (fun r => r.observed) =
        gcps.map (fun g => g.map) ∧
      (computeAffineFitReport gcps affine).residuals.map (fun r => r.predicted) =
        gcps.map (fun g => applyAffine affine g.pixel.1 g.pixel.2) ∧
      (computeAffineFitReport gcps affine).rmseMeters =
        some (Real.sqrt
          ((gcps.map (fun g =>
            euclidDist (applyAffine affine g.pixel.1 g.pixel.2) g.map ^ 2)).sum /
            gcps.length)) ∧
      ∃ m, (computeAffineFitReport gcps affine).maxErrorMeters = some m ∧
        (∀ r ∈ (computeAffineFitReport gcps affine).residuals, r.errorMeters ≤ m) ∧
        ∃ r ∈ (computeAffineFitReport gcps affine).residuals, r.errorMeters = m) := by
  constructor
  · intro hle
    unfold computeAffineFitReport
    rw [if_pos hle]
  · intro hge
    have hrep : computeAffineFitReport gcps affine =
        ⟨.verified,
         some (Real.sqrt
           ((gcps.map (residualOf affine)).foldl
              (fun sum r => sum + r.errorMeters ^ 2) 0 /
            ((gcps.map (residualOf affine)).length : ℝ))),
         some ((gcps.map (residualOf affine)).foldl (fun m r => max m r.errorMeters) 0),
         gcps.map (residualOf affine)⟩ := by
      unfold computeAffineFitReport
      rw [if_neg (by omega)]
    rw [hrep]
    refine ⟨rfl, ?_, ?_, ?_, ?_, ?_⟩
    · rw [List.map_map]
      exact List.map_congr_left fun g _ => rfl
    · rw [List.map_map]
      exact List.map_congr_left fun g _ => rfl
    · rw [List.map_map]
      exact List.map_congr_left fun g _ => rfl
    · have hsum : (gcps.map (residualOf affine)).foldl
          (fun sum r => sum + r.errorMeters ^ 2) 0 =
          (gcps.map (fun g =>
            euclidDist (applyAffine affine g.pixel.1 g.pixel.2) g.map ^ 2)).sum := by
        rw [foldl_add_map (gcps.map (residualOf affine)) (fun r => r.errorMeters ^ 2),
          List.map_map]
        rfl
      simp only [hsum, List.length_map]
    · set res := gcps.map (residualOf affine) with hres
      have hnonneg : ∀ r ∈ res, 0 ≤ r.errorMeters := by
        intro r hr
        rw [hres] at hr
        obtain ⟨g, _, rfl⟩ := List.mem_map.mp hr
        exact Real.sqrt_nonneg _
      have hlen : res.length = gcps.length := by
        rw [hres]
        exact List.length_map _ _
      have h := foldl_max_spec (res.map fun r => r.errorMeters) 0
      rw [List.foldl_map] at h
      refine ⟨res.foldl (fun m r => max m r.errorMeters) 0, rfl, ?_, ?_⟩
      · intro r hr
        exact h.2.1 _ (List.mem_map.mpr ⟨r, hr, rfl⟩)
      · rcases h.2.2 with heq | hmem
        · rcases hml : res with _ | ⟨r0, rs⟩
          · rw [hml] at hlen
            simp at hlen
            omega
          · have hr0 : r0 ∈ res := by
              rw [hml]
              exact List.mem_cons_self r0 rs
            refine ⟨r0, List.mem_cons_self r0 rs, ?_⟩
            have h1 := h.2.1 r0.errorMeters (List.mem_map.mpr ⟨r0, hr0, rfl⟩)
            have h2 := hnonneg r0 hr0
            rw [heq] at h1
            rw [← hml, heq]
            linarith
        · obtain ⟨r, hr, hrm⟩ := List.mem_map.mp hmem
          exact ⟨r, hr, hrm⟩

/-- Witness for C6: the two regimes at concrete GCP lists. -/
theorem computeAffineFitReport_spec_witness :
    computeAffineFitReport
      [⟨"1", (0, 0), (0, 0), (0, 0)⟩, ⟨"2", (1, 0), (1, 0), (0, 0)⟩,
       ⟨"3", (0, 1), (0, 1), (0, 0)⟩] ⟨1, 0, 0, 0, 1, 0⟩ =
      ⟨.unverifiable3pt, none, none, []⟩ ∧
    (computeAffineFitReport
      [⟨"1", (0, 0), (0, 0), (0, 0)⟩, ⟨"2", (1, 0), (1, 0), (0, 0)⟩,
       ⟨"3", (0, 1), (0, 1), (0, 0)⟩, ⟨"4", (1, 1), (1, 1), (0, 0)⟩]
      ⟨1, 0, 0, 0, 1, 0⟩).fitStatus = .verified :=
  ⟨(computeAffineFitReport_spec _ ⟨1, 0, 0, 0, 1, 0⟩).1 (by simp),
   ((computeAffineFitReport_spec _ ⟨1, 0, 0, 0, 1, 0⟩).2 (by simp)).1⟩

theorem pairList_mem (n i j : ℕ) : (i, j) ∈ pairList n ↔ i < j ∧ j < n := by
  unfold pairList
  simp only [List.mem_flatMap, List.mem_map, List.mem_filter, List.mem_range,
    decide_eq_true_eq, Prod.mk.injEq]
  constructor
  · rintro ⟨a, ha, b, ⟨hb, hab⟩, rfl, rfl⟩
    exact ⟨hab, hb⟩
  · rintro ⟨hij, hj⟩
    exact ⟨i, lt_trans hij hj, j, ⟨hj, hij⟩, rfl, rfl⟩

/- ===== Claim C7: validator correctness ===== -/

theorem isEmpty_eq_false_iff {α : Type} (l : List α) : l.isEmpty = false ↔ l ≠ [] := by
  cases l <;> simp

theorem pixelDupErrors_eq_nil (gcps : List GCPPoint) :
    pixelDupErrors gcps = [] ↔
      ∀ i j, i < j → j < gcps.length →
        ¬ distSq (gcps.getD i defaultGCP).pixel (gcps.getD j defaultGCP).pixel < 1 := by
  unfold pixelDupErrors
  rw [List.filterMap_eq_nil_iff]
  constructor
  · intro h i j hij hj hlt
    have hm := h (i, j) ((pairList_mem _ _ _).mpr ⟨hij, hj⟩)
    rw [if_pos hlt] at hm
    exact Option.noConfusion hm
  · intro h p hp
    rcases p with ⟨i, j⟩
    obtain ⟨hij, hj⟩ := (pairList_mem _ i j).mp hp
    rw [if_neg (h i j hij hj)]

theorem mapDupErrors_eq_nil (gcps : List GCPPoint) :
    mapDupErrors gcps = [] ↔
      ∀ i j, i < j → j < gcps.length →
        ¬ distSq (gcps.getD i defaultGCP).map (gcps.getD j defaultGCP).map < 1 / 10 ^ 4 := by
  unfold mapDupErrors
  rw [List.filterMap_eq_nil_iff]
  constructor
  · intro h i j hij hj hlt
    have hm := h (i, j) ((pairList_mem _ _ _).mpr ⟨hij, hj⟩)
    rw [if_pos hlt] at hm
    exact Option.noConfusion hm
  · intro h p hp
    rcases p with ⟨i, j⟩
    obtain ⟨hij, hj⟩ := (pairList_mem _ i j).mp hp
    rw [if_neg (h i j hij hj)]

/-- C7.  validateGCPs reports `valid = false` (with an error recorded)
exactly when there are fewer than 3 GCPs, or two GCPs have pixel
coordinates at Euclidean distance below 1, or two GCPs have map coordinates
at Euclidean distance below 0.01, or the first three pixel coordinates
have (twice-)triangle area below 1; otherwise `valid = true`.  Warnings
never affect validity. -/
theorem validateGCPs_valid_iff (gcps : List GCPPoint) :
    ((validateGCPs gcps).valid = true ↔
      (3 ≤ gcps.length ∧
       (∀ i j, i < j → j < gcps.length →
         ¬ Real.sqrt ((distSq (gcps.getD i defaultGCP).pixel
             (gcps.getD j defaultGCP).pixel : ℚ) : ℝ) < 1) ∧
       (∀ i j, i < j → j < gcps.length →
         ¬ Real.sqrt ((distSq (gcps.getD i defaultGCP).map
             (gcps.getD j defaultGCP).map : ℚ) : ℝ) < 1 / 100) ∧
       ¬ collinearityArea gcps < 1)) ∧
    ((validateGCPs gcps).valid = false ↔ (validateGCPs gcps).errors ≠ []) := by
  have hconv1 : ∀ d : ℚ, (Real.sqrt (d : ℝ) < 1 ↔ d < 1) := by
    intro d
    rw [Real.sqrt_lt' (by norm_num : (0 : ℝ) < 1)]
    norm_num
    exact_mod_cast Iff.rfl
  have hconv2 : ∀ d : ℚ, (Real.sqrt (d : ℝ) < 1 / 100 ↔ d < 1 / 10 ^ 4) := by
    intro d
    rw [Real.sqrt_lt' (by norm_num : (0 : ℝ) < 1 / 100),
      show ((1 : ℝ) / 100) ^ 2 = ((1 / 10 ^ 4 : ℚ) : ℝ) by norm_num, Rat.cast_lt]
  simp only [hconv1, hconv2]
  by_cases hlen : gcps.length < 3
  · have hval : validateGCPs gcps = ⟨false, [.tooFew], []⟩ := by
      unfold validateGCPs
      rw [if_pos hlen]
    rw [hval]
    constructor
    · constructor
      · intro h
        simp at h
      · rintro ⟨h3, _⟩
        omega
    · simp
  · have hval : (validateGCPs gcps).valid =
        (pixelDupErrors gcps ++ mapDupErrors gcps ++
          (if collinearityArea gcps < 1 then [GCPError.collinearPixels] else [])).isEmpty := by
      unfold validateGCPs
      rw [if_neg hlen]
    have herr : (validateGCPs gcps).errors =
        pixelDupErrors gcps ++ mapDupErrors gcps ++
          (if collinearityArea gcps < 1 then [GCPError.collinearPixels] else []) := by
      unfold validateGCPs
      rw [if_neg hlen]
    have hCnil : (if collinearityArea gcps < 1 then
        ([GCPError.collinearPixels] : List GCPError) else []) = [] ↔
        ¬ collinearityArea gcps < 1 := by
      split_ifs with h
      · simp [h]
      · simp [h]
    rw [hval, herr]
    constructor
    · rw [List.isEmpty_iff, List.append_eq_nil, List.append_eq_nil,
        pixelDupErrors_eq_nil, mapDupErrors_eq_nil, hCnil]
      constructor
      · rintro ⟨⟨hA, hB⟩, hC⟩
        exact ⟨by omega, hA, hB, hC⟩
      · rintro ⟨h3, hA, hB, hC⟩
        exact ⟨⟨hA, hB⟩, hC⟩
    · exact isEmpty_eq_false_iff _

/-- Witness for C7 at the empty GCP list. -/
theorem validateGCPs_valid_iff_witness : (validateGCPs []).valid ≠ true := by
  intro h
  have h3 := ((validateGCPs_valid_iff []).1.mp h).1
  simp at h3

/- ===== Claim C10: sampleBilinear is total, in-bounds and bounded ===== -/

/-- Linear interpolation with a weight in `[0,1]` stays between its
endpoints. -/
theorem interp_bounds (a b t : ℚ) (h0 : 0 ≤ t) (h1 : t ≤ 1) :
    min a b ≤ a * (1 - t) + b * t ∧ a * (1 - t) + b * t ≤ max a b := by
  rcases le_total a b with hab | hba
  · rw [min_eq_left hab, max_eq_right hab]
    constructor <;> nlinarith
  · rw [min_eq_right hba, max_eq_left hba]
    constructor <;> nlinarith

/-- The RGBA offset of an in-range grid point is a valid RGBA cell start. -/
theorem rgbaIdx_bounds (W H : ℕ) (xq yq : ℤ) (hW : 1 ≤ W) (hH : 1 ≤ H)
    (hx0 : 0 ≤ xq) (hx1 : xq ≤ (W : ℤ) - 1) (hy0 : 0 ≤ yq) (hy1 : yq ≤ (H : ℤ) - 1) :
    0 ≤ rgbaIdx W xq yq ∧ rgbaIdx W xq yq + 3 < 4 * (W : ℤ) * (H : ℤ) := by
  have hWZ : (1 : ℤ) ≤ (W : ℤ) := by exact_mod_cast hW
  have hHZ : (1 : ℤ) ≤ (H : ℤ) := by exact_mod_cast hH
  unfold rgbaIdx
  constructor
  · have h1 : 0 ≤ yq * (W : ℤ) := mul_nonneg hy0 (by linarith)
    nlinarith
  · have h2 : yq * (W : ℤ) ≤ ((H : ℤ) - 1) * (W : ℤ) :=
      mul_le_mul_of_nonneg_right hy1 (by linarith)
    nlinarith

/-- C10.  For every real input, sampleBilinear clamps the sampling position
into `[0,W−1]×[0,H−1]`, all four RGBA buffer offsets it computes are valid
indices into the `W×H` RGBA buffer, and the returned channel value lies
between the minimum and the maximum of the four sampled neighbours (hence
within `[0,255]` for byte-valued buffers). -/
theorem sampleBilinear_safe (srcData : List ℕ) (W H : ℕ) (u v : ℚ) (c : Fin 4)
    (hW : 1 ≤ W) (hH : 1 ≤ H) (hlen : srcData.length = 4 * W * H) :
    (0 ≤ sbX W u ∧ sbX W u ≤ (W : ℚ) - 1 ∧ 0 ≤ sbY H v ∧ sbY H v ≤ (H : ℚ) - 1) ∧
    (∀ i ∈ [rgbaIdx W (sbX0 W u) (sbY0 H v), rgbaIdx W (sbX1 W u) (sbY0 H v),
            rgbaIdx W (sbX0 W u) (sbY1 H v), rgbaIdx W (sbX1 W u) (sbY1 H v)],
       0 ≤ i ∧ (i + (c : ℕ)).toNat < srcData.length) ∧
    (min (min (sbVal srcData W (sbX0 W u) (sbY0 H v) c)
              (sbVal srcData W (sbX1 W u) (sbY0 H v) c))
         (min (sbVal srcData W (sbX0 W u) (sbY1 H v) c)
              (sbVal srcData W (sbX1 W u) (sbY1 H v) c)) ≤
       sampleBilinear srcData W H u v c ∧
     sampleBilinear srcData W H u v c ≤
       max (max (sbVal srcData W (sbX0 W u) (sbY0 H v) c)
                (sbVal srcData W (sbX1 W u) (sbY0 H v) c))
           (max (sbVal srcData W (sbX0 W u) (sbY1 H v) c)
                (sbVal srcData W (sbX1 W u) (sbY1 H v) c))) ∧
    ((∀ a ∈ srcData, a ≤ 255) →
      0 ≤ sampleBilinear srcData W H u v c ∧ sampleBilinear srcData W H u v c ≤ 255) := by
  have hW1 : (1 : ℚ) ≤ (W : ℚ) := by exact_mod_cast hW
  have hH1 : (1 : ℚ) ≤ (H : ℚ) := by exact_mod_cast hH
  have hxlo : 0 ≤ sbX W u := le_max_left 0 _
  have hxhi : sbX W u ≤ (W : ℚ) - 1 :=
    max_le (by linarith) (min_le_left _ _)
  have hylo : 0 ≤ sbY H v := le_max_left 0 _
  have hyhi : sbY H v ≤ (H : ℚ) - 1 :=
    max_le (by linarith) (min_le_left _ _)
  have hx00 : 0 ≤ sbX0 W u := Int.floor_nonneg.mpr hxlo
  have hx0hi : sbX0 W u ≤ (W : ℤ) - 1 := by
    have h := Int.floor_le_floor hxhi
    rwa [show ((W : ℚ) - 1) = (((W : ℤ) - 1 : ℤ) : ℚ) by push_cast; ring,
      Int.floor_intCast] at h
  have hy00 : 0 ≤ sbY0 H v := Int.floor_nonneg.mpr hylo
  have hy0hi : sbY0 H v ≤ (H : ℤ) - 1 := by
    have h := Int.floor_le_floor hyhi
    rwa [show ((H : ℚ) - 1) = (((H : ℤ) - 1 : ℤ) : ℚ) by push_cast; ring,
      Int.floor_intCast] at h
  have hWZ : (1 : ℤ) ≤ (W : ℤ) := by exact_mod_cast hW
  have hHZ : (1 : ℤ) ≤ (H : ℤ) := by exact_mod_cast hH
  have hx10 : 0 ≤ sbX1 W u := le_min (by omega) (by omega)
  have hx1hi : sbX1 W u ≤ (W : ℤ) - 1 := min_le_right _ _
  have hy10 : 0 ≤ sbY1 H v := le_min (by omega) (by omega)
  have hy1hi : sbY1 H v ≤ (H : ℤ) - 1 := min_le_right _ _
  have hcast : 4 * (W : ℤ) * (H : ℤ) = ((4 * W * H : ℕ) : ℤ) := by push_cast; ring
  have hc4 : (c : ℕ) < 4 := c.isLt
  have ht0 : 0 ≤ sbX W u - (sbX0 W u : ℚ) := by
    have := Int.floor_le (sbX W u)
    unfold sbX0
    linarith
  have ht1 : sbX W u - (sbX0 W u : ℚ) ≤ 1 := by
    have := Int.lt_floor_add_one (sbX W u)
    unfold sbX0
    push_cast at this ⊢
    linarith
  have hs0 : 0 ≤ sbY H v - (sbY0 H v : ℚ) := by
    have := Int.floor_le (sbY H v)
    unfold sbY0
    linarith
  have hs1 : sbY H v - (sbY0 H v : ℚ) ≤ 1 := by
    have := Int.lt_floor_add_one (sbY H v)
    unfold sbY0
    push_cast at this ⊢
    linarith
  have h1 := interp_bounds (sbVal srcData W (sbX0 W u) (sbY0 H v) c)
    (sbVal srcData W (sbX1 W u) (sbY0 H v) c) _ ht0 ht1
  have h2 := interp_bounds (sbVal srcData W (sbX0 W u) (sbY1 H v) c)
    (sbVal srcData W (sbX1 W u) (sbY1 H v) c) _ ht0 ht1
  have h3 := interp_bounds
    (sbVal srcData W (sbX0 W u) (sbY0 H v) c * (1 - (sbX W u - (sbX0 W u : ℚ))) +
     sbVal srcData W (sbX1 W u) (sbY0 H v) c * (sbX W u - (sbX0 W u : ℚ)))
    (sbVal srcData W (sbX0 W u) (sbY1 H v) c * (1 - (sbX W u - (sbX0 W u : ℚ))) +
     sbVal srcData W (sbX1 W u) (sbY1 H v) c * (sbX W u - (sbX0 W u : ℚ)))
    _ hs0 hs1
  have hbnd : min (min (sbVal srcData W (sbX0 W u) (sbY0 H v) c)
              (sbVal srcData W (sbX1 W u) (sbY0 H v) c))
         (min (sbVal srcData W (sbX0 W u) (sbY1 H v) c)
              (sbVal srcData W (sbX1 W u) (sbY1 H v) c)) ≤
       sampleBilinear srcData W H u v c ∧
     sampleBilinear srcData W H u v c ≤
       max (max (sbVal srcData W (sbX0 W u) (sbY0 H v) c)
                (sbVal srcData W (sbX1 W u) (sbY0 H v) c))
           (max (sbVal srcData W (sbX0 W u) (sbY1 H v) c)
                (sbVal srcData W (sbX1 W u) (sbY1 H v) c)) := by
    constructor
    · refine le_trans (le_min ?_ ?_) h3.1
      · exact le_trans (min_le_left _ _) h1.1
      · exact le_trans (min_le_right _ _) h2.1
    · refine le_trans h3.2 (max_le ?_ ?_)
      · exact le_trans h1.2 (le_max_left _ _)
      · exact le_trans h2.2 (le_max_right _ _)
  refine ⟨⟨hxlo, hxhi, hylo, hyhi⟩, ?_, hbnd, ?_⟩
  · intro i hi
    simp only [List.mem_cons, List.not_mem_nil, or_false] at hi
    rcases hi with rfl | rfl | rfl | rfl
    · have h := rgbaIdx_bounds W H _ _ hW hH hx00 hx0hi hy00 hy0hi
      rw [hcast] at h
      refine ⟨h.1, ?_⟩
      omega
    · have h := rgbaIdx_bounds W H _ _ hW hH hx10 hx1hi hy00 hy0hi
      rw [hcast] at h
      refine ⟨h.1, ?_⟩
      omega
    · have h := rgbaIdx_bounds W H _ _ hW hH hx00 hx0hi hy10 hy1hi
      rw [hcast] at h
      refine ⟨h.1, ?_⟩
      omega
    · have h := rgbaIdx_bounds W H _ _ hW hH hx10 hx1hi hy10 hy1hi
      rw [hcast] at h
      refine ⟨h.1, ?_⟩
      omega
  · intro hbd
    have hv : ∀ xq yq, (0 : ℚ) ≤ sbVal srcData W xq yq c ∧
        sbVal srcData W xq yq c ≤ 255 := by
      intro xq yq
      unfold sbVal
      constructor
      · positivity
      · have : srcData.getD (rgbaIdx W xq yq + (c : ℕ)).toNat 0 ≤ 255 := by
          by_cases hidx : (rgbaIdx W xq yq + (c : ℕ)).toNat < srcData.length
          · rw [List.getD_eq_getElem srcData 0 hidx]
            exact hbd _ (List.getElem_mem hidx)
          · rw [List.getD_eq_default srcData 0 (le_of_not_lt hidx)]
            norm_num
        exact_mod_cast this
    constructor
    · refine le_trans ?_ hbnd.1
      exact le_min (le_min (hv _ _).1 (hv _ _).1) (le_min (hv _ _).1 (hv _ _).1)
    · refine le_trans hbnd.2 ?_
      exact max_le (max_le (hv _ _).2 (hv _ _).2) (max_le (hv _ _).2 (hv _ _).2)

/-- Witness for C10 at a 1×1 image. -/
theorem sampleBilinear_safe_witness :
    0 ≤ sbX 1 0 ∧ sbX 1 0 ≤ (1 : ℚ) - 1 ∧ 0 ≤ sbY 1 0 ∧ sbY 1 0 ≤ (1 : ℚ) - 1 :=
  (sampleBilinear_safe [1, 2, 3, 4] 1 1 0 0 0 (by norm_num) (by norm_num)
    (by norm_num)).1

/-- C1 (amended).  Every output pixel of the warp canvas function equals the
amended specification pixel: bounding-box pre-filter, even-odd ray-cast
test, source-bounds test, then rounded (byte-clamped) bilinear RGBA with no
per-pixel opacity scaling. -/
theorem canvasPixel_eq_specAmended (src : CanvasSrc) (extent : Extent)
    (width height px py : ℕ) :
    canvasPixel src extent width height px py =
      specWarpPixelAmended src extent width height px py := by
  unfold canvasPixel specWarpPixelAmended
  set x := extent.minX + ((px : ℚ) + 1 / 2) * ((extent.maxX - extent.minX) / width) with hx
  set y := extent.maxY - ((py : ℚ) + 1 / 2) * ((extent.maxY - extent.minY) / height) with hy
  by_cases hbb : x < src.polyExtent.minX ∨ x > src.polyExtent.maxX ∨
      y < src.polyExtent.minY ∨ y > src.polyExtent.maxY
  · rw [if_pos hbb, if_neg]
    intro hc
    rcases hc with ⟨⟨hb1, hb2, hb3, hb4⟩, _⟩
    rcases hbb with h | h | h | h <;> exact absurd h (not_lt.mpr (by assumption))
  · rw [if_neg hbb]
    push_neg at hbb
    obtain ⟨hb1, hb2, hb3, hb4⟩ := hbb
    by_cases hpip : pointInPolygon (x, y) src.polygon = true
    · rw [if_pos hpip]
      by_cases huv : (applyAffine src.inverse x y).1 < 0 ∨
          (applyAffine src.inverse x y).1 ≥ (src.image.naturalWidth : ℚ) ∨
          (applyAffine src.inverse x y).2 < 0 ∨
          (applyAffine src.inverse x y).2 ≥ (src.image.naturalHeight : ℚ)
      · rw [if_pos huv, if_neg]
        intro hc
        rcases hc with ⟨_, _, hu0, hu1, hv0, hv1⟩
        rcases huv with h | h | h | h
        · exact absurd h (not_lt.mpr hu0)
        · exact absurd h (not_le.mpr hu1)
        · exact absurd h (not_lt.mpr hv0)
        · exact absurd h (not_le.mpr hv1)
      · rw [if_neg huv, if_pos]
        push_neg at huv
        exact ⟨⟨le_of_not_lt (fun h => absurd h (not_lt.mpr hb1)), hb2, hb3, hb4⟩,
          hpip, huv.1, lt_of_not_le (fun h => absurd h (not_le.mpr huv.2.1)),
          huv.2.2.1, lt_of_not_le (fun h => absurd h (not_le.mpr huv.2.2.2))⟩
    · rw [if_neg hpip, if_neg]
      intro hc
      exact hpip hc.2.1

/-- C1 counterexample.  Three concrete warps on which the claimed per-pixel
formula fails: (1) with opacity ½ the canvas keeps the unscaled 255 channels
(opacity is a layer property, not applied in the warp); (2) a half-pixel
sample is written as `round(127.5) = 128`, not the exact bilinear 127.5;
(3) a point outside the ring's bounding box that the epsilon-fudged even-odd
test calls inside is left transparent by the bbox pre-filter although the
claim's formula demands the sampled colour. -/
theorem canvasPixel_claim_cex :
    (createAffineCanvasSource ⟨1, 1, [255, 255, 255, 255]⟩ ⟨1, 0, 0, 0, 1, 0⟩
        [(0, 0), (1, 0), (1, 1), (0, 1), (0, 0)] =
      some ⟨⟨1, 1, [255, 255, 255, 255]⟩, ⟨1, 0, 0, 0, 1, 0⟩,
        [(0, 0), (1, 0), (1, 1), (0, 1)], ⟨0, 0, 1, 1⟩⟩ ∧
     canvasPixel ⟨⟨1, 1, [255, 255, 255, 255]⟩, ⟨1, 0, 0, 0, 1, 0⟩,
        [(0, 0), (1, 0), (1, 1), (0, 1)], ⟨0, 0, 1, 1⟩⟩ ⟨0, 0, 1, 1⟩ 1 1 0 0 =
        (255, 255, 255, 255) ∧
     specWarpPixelC1 ⟨⟨1, 1, [255, 255, 255, 255]⟩, ⟨1, 0, 0, 0, 1, 0⟩,
        [(0, 0), (1, 0), (1, 1), (0, 1)], ⟨0, 0, 1, 1⟩⟩ (1 / 2) ⟨0, 0, 1, 1⟩ 1 1 0 0 =
        (255 / 2, 255 / 2, 255 / 2, 255 / 2) ∧
     intQuadToRat (255, 255, 255, 255) ≠
        ((255 / 2 : ℚ), (255 / 2 : ℚ), (255 / 2 : ℚ), (255 / 2 : ℚ))) ∧
    (createAffineCanvasSource ⟨2, 1, [0, 0, 0, 0, 255, 255, 255, 255]⟩
        ⟨1, 0, 0, 0, 1, 0⟩ [(0, 0), (2, 0), (2, 1), (0, 1), (0, 0)] =
      some ⟨⟨2, 1, [0, 0, 0, 0, 255, 255, 255, 255]⟩, ⟨1, 0, 0, 0, 1, 0⟩,
        [(0, 0), (2, 0), (2, 1), (0, 1)], ⟨0, 0, 2, 1⟩⟩ ∧
     (canvasPixel ⟨⟨2, 1, [0, 0, 0, 0, 255, 255, 255, 255]⟩, ⟨1, 0, 0, 0, 1, 0⟩,
        [(0, 0), (2, 0), (2, 1), (0, 1)], ⟨0, 0, 2, 1⟩⟩ ⟨0, 0, 1, 1⟩ 1 1 0 0).1 = 128 ∧
     (specWarpPixelC1 ⟨⟨2, 1, [0, 0, 0, 0, 255, 255, 255, 255]⟩, ⟨1, 0, 0, 0, 1, 0⟩,
        [(0, 0), (2, 0), (2, 1), (0, 1)], ⟨0, 0, 2, 1⟩⟩ 1 ⟨0, 0, 1, 1⟩ 1 1 0 0).1 =
        255 / 2 ∧
     ((128 : ℤ) : ℚ) ≠ (255 / 2 : ℚ)) ∧
    (createAffineCanvasSource ⟨1, 1, [255, 255, 255, 255]⟩ ⟨1, 0, 73 / 5, 0, 1, 0⟩
        [(0, 1 - 1 / 2 ^ 53), (10, 1), (5, 0), (0, 1 - 1 / 2 ^ 53)] =
      some ⟨⟨1, 1, [255, 255, 255, 255]⟩, ⟨1, 0, -(73 / 5), 0, 1, 0⟩,
        [(0, 1 - 1 / 2 ^ 53), (10, 1), (5, 0)], ⟨0, 0, 10, 1⟩⟩ ∧
     canvasPixel ⟨⟨1, 1, [255, 255, 255, 255]⟩, ⟨1, 0, -(73 / 5), 0, 1, 0⟩,
        [(0, 1 - 1 / 2 ^ 53), (10, 1), (5, 0)], ⟨0, 0, 10, 1⟩⟩
        ⟨14, -(1 / 2 ^ 53), 16, 2 - 1 / 2 ^ 53⟩ 1 1 0 0 = (0, 0, 0, 0) ∧
     specWarpPixelC1 ⟨⟨1, 1, [255, 255, 255, 255]⟩, ⟨1, 0, -(73 / 5), 0, 1, 0⟩,
        [(0, 1 - 1 / 2 ^ 53), (10, 1), (5, 0)], ⟨0, 0, 10, 1⟩⟩ 1
        ⟨14, -(1 / 2 ^ 53), 16, 2 - 1 / 2 ^ 53⟩ 1 1 0 0 = (255, 255, 255, 255) ∧
     intQuadToRat (0, 0, 0, 0) ≠ ((255 : ℚ), (255 : ℚ), (255 : ℚ), (255 : ℚ))) := by
  refine ⟨⟨?_, ?_, ?_, ?_⟩, ⟨?_, ?_, ?_, ?_⟩, ⟨?_, ?_, ?_, ?_⟩⟩
  · norm_num [createAffineCanvasSource, invertAffine, eps12, ringExtent]
  · norm_num [canvasPixel, pointInPolygon, pipEdges, epsJS, applyAffine, sampleBilinear,
      sbX, sbY, sbX0, sbY0, sbX1, sbY1, sbVal, rgbaIdx, u8c, round_eq, Int.toNat_ofNat,
      show ((0 : Fin 4) : ℕ) = 0 from rfl, show ((1 : Fin 4) : ℕ) = 1 from rfl,
      show ((2 : Fin 4) : ℕ) = 2 from rfl, show ((3 : Fin 4) : ℕ) = 3 from rfl,
      show Int.toNat 2 = 2 from rfl, show Int.toNat 3 = 3 from rfl]
  · norm_num [specWarpPixelC1, pointInPolygon, pipEdges, epsJS, applyAffine, sampleBilinear,
      sbX, sbY, sbX0, sbY0, sbX1, sbY1, sbVal, rgbaIdx,
      show ((0 : Fin 4) : ℕ) = 0 from rfl, show ((1 : Fin 4) : ℕ) = 1 from rfl,
      show ((2 : Fin 4) : ℕ) = 2 from rfl, show ((3 : Fin 4) : ℕ) = 3 from rfl,
      show Int.toNat 2 = 2 from rfl, show Int.toNat 3 = 3 from rfl]
  · norm_num [intQuadToRat, Prod.ext_iff]
  · norm_num [createAffineCanvasSource, invertAffine, eps12, ringExtent]
  · norm_num [canvasPixel, pointInPolygon, pipEdges, epsJS, applyAffine, sampleBilinear,
      sbX, sbY, sbX0, sbY0, sbX1, sbY1, sbVal, rgbaIdx, u8c, round_eq, Int.toNat_ofNat,
      show ((0 : Fin 4) : ℕ) = 0 from rfl,
      show Int.toNat 2 = 2 from rfl, show Int.toNat 3 = 3 from rfl,
      show Int.toNat 4 = 4 from rfl, show Int.toNat 5 = 5 from rfl]
  · norm_num [specWarpPixelC1, pointInPolygon, pipEdges, epsJS, applyAffine, sampleBilinear,
      sbX, sbY, sbX0, sbY0, sbX1, sbY1, sbVal, rgbaIdx,
      show ((0 : Fin 4) : ℕ) = 0 from rfl,
      show Int.toNat 2 = 2 from rfl, show Int.toNat 3 = 3 from rfl,
      show Int.toNat 4 = 4 from rfl, show Int.toNat 5 = 5 from rfl]
  · norm_num
  · norm_num [createAffineCanvasSource, invertAffine, eps12, ringExtent]
  · norm_num [canvasPixel]
  · norm_num [specWarpPixelC1, pointInPolygon, pipEdges, epsJS, applyAffine, sampleBilinear,
      sbX, sbY, sbX0, sbY0, sbX1, sbY1, sbVal, rgbaIdx,
      show ((0 : Fin 4) : ℕ) = 0 from rfl, show ((1 : Fin 4) : ℕ) = 1 from rfl,
      show ((2 : Fin 4) : ℕ) = 2 from rfl, show ((3 : Fin 4) : ℕ) = 3 from rfl,
      show Int.toNat 2 = 2 from rfl, show Int.toNat 3 = 3 from rfl]
  · norm_num [intQuadToRat, Prod.ext_iff]

/- ===== Claim C9: early-return frame effect ===== -/

/-- C9.  With no loaded image, no image layer, or an outer ring of fewer
than 5 coordinates, syncImageFromPolygon changes nothing and emits no
warning. -/
theorem syncImageFromPolygon_noop (st : OverlayState) (rings : List (List (ℚ × ℚ)))
    (h : st.originalImage = none ∨ st.imageLayer = none ∨ (rings.headD []).length < 5) :
    syncImageFromPolygon st rings = (st, none) := by
  rcases st with ⟨oi, il, ca⟩
  rcases oi with _ | img
  · rcases il with _ | lay <;> rfl
  · rcases il with _ | lay
    · rfl
    · rcases h with h | h | h
      · exact absurd h (by simp)
      · exact absurd h (by simp)
      · have hred : syncImageFromPolygon ⟨some img, some lay, ca⟩ rings =
            syncCore img ⟨some img, some lay, ca⟩ rings := rfl
        rw [hred]
        unfold syncCore
        rw [if_pos h]

/-- Witness for C9 at the empty state. -/
theorem syncImageFromPolygon_noop_witness :
    syncImageFromPolygon ⟨none, none, none⟩ [] = (⟨none, none, none⟩, none) :=
  syncImageFromPolygon_noop ⟨none, none, none⟩ [] (Or.inl rfl)

/- ===== Claim C8: the non-parallelogram gate ===== -/

/-- C8.  With an image and layer loaded and a closed ring of at least 5
coordinates whose four corners fail the parallelogram feasibility check,
syncImageFromPolygon emits the non-parallelogram warning and leaves the
whole session state (in particular the current affine matrix) unchanged. -/
theorem syncImageFromPolygon_nonParallelogram (st : OverlayState) (img : Image)
    (lay : CanvasSrc) (rings : List (List (ℚ × ℚ)))
    (himg : st.originalImage = some img) (hlay : st.imageLayer = some lay)
    (hlen : 5 ≤ (rings.headD []).length)
    (hpar : ¬ isParallelogram (syncCorners rings)) :
    syncImageFromPolygon st rings = (st, some .nonParallelogram) := by
  rcases st with ⟨oi, il, ca⟩
  obtain rfl : oi = some img := himg
  obtain rfl : il = some lay := hlay
  have hred : syncImageFromPolygon ⟨some img, some lay, ca⟩ rings =
      syncCore img ⟨some img, some lay, ca⟩ rings := rfl
  rw [hred]
  unfold syncCore
  rw [if_neg (by omega), if_neg hpar]

/-- Witness for C8: a degenerate "quadrilateral" whose midpoint mismatch is
a full unit. -/
theorem syncImageFromPolygon_nonParallelogram_witness :
    syncImageFromPolygon
      ⟨some ⟨1, 1, [255, 255, 255, 255]⟩,
       some ⟨⟨1, 1, [255, 255, 255, 255]⟩, ⟨1, 0, 0, 0, 1, 0⟩, [], ⟨0, 0, 0, 0⟩⟩, none⟩
      [[(0, 0), (0, 0), (0, 0), (1, 0), (0, 0)]] =
    (⟨some ⟨1, 1, [255, 255, 255, 255]⟩,
      some ⟨⟨1, 1, [255, 255, 255, 255]⟩, ⟨1, 0, 0, 0, 1, 0⟩, [], ⟨0, 0, 0, 0⟩⟩, none⟩,
     some .nonParallelogram) := by
  apply syncImageFromPolygon_nonParallelogram _ _
    ⟨⟨1, 1, [255, 255, 255, 255]⟩, ⟨1, 0, 0, 0, 1, 0⟩, [], ⟨0, 0, 0, 0⟩⟩ _ rfl rfl
    (by norm_num)
  intro hp
  have h2 := hp.2
  norm_num [syncCorners, hypotR] at h2

/- ===== Claim C2: parallelogram edits re-solve the affine ===== -/

/-- C2 (amended).  With an image and layer loaded, a closed ring of at
least 5 coordinates, its four corners passing the parallelogram check and a
nonempty image: the least-squares solve of the four synthetic
correspondences (image pixel corners paired with the polygon corners in
winding order) always succeeds, and syncImageFromPolygon installs exactly
that matrix and a canvas source rebuilt from it and the edited ring itself
— provided the solved matrix is invertible; when invertAffine rejects it
the session is left unchanged with a sync-failure warning.  No footprint
re-derivation through the footprint projector takes place. -/
theorem syncImageFromPolygon_parallelogram_sync (st : OverlayState) (img : Image)
    (lay : CanvasSrc) (rings : List (List (ℚ × ℚ)))
    (himg : st.originalImage = some img) (hlay : st.imageLayer = some lay)
    (hW : 1 ≤ img.naturalWidth) (hH : 1 ≤ img.naturalHeight)
    (hlen : 5 ≤ (rings.headD []).length)
    (hpar : isParallelogram (syncCorners rings)) :
    (∃ M, solveAffineTransform (syncGCPs img (syncCorners rings)) = some M) ∧
    ∀ M, solveAffineTransform (syncGCPs img (syncCorners rings)) = some M →
      ((∀ src, createAffineCanvasSource img M (rings.headD []) = some src →
          syncImageFromPolygon st rings =
            ({ st with imageLayer := some src, currentAffine := some M }, none)) ∧
       (createAffineCanvasSource img M (rings.headD []) = none →
          syncImageFromPolygon st rings = (st, some .syncFailed))) := by
  constructor
  · have hdet : det3 (normalMat (syncGCPs img (syncCorners rings))) =
        4 * (img.naturalWidth : ℚ) ^ 2 * (img.naturalHeight : ℚ) ^ 2 := by
      simp only [normalMat, syncGCPs, det3, List.foldl]
      ring
    have hW1 : (1 : ℚ) ≤ (img.naturalWidth : ℚ) := by exact_mod_cast hW
    have hH1 : (1 : ℚ) ≤ (img.naturalHeight : ℚ) := by exact_mod_cast hH
    have hge : eps12 ≤ |det3 (normalMat (syncGCPs img (syncCorners rings)))| := by
      rw [hdet, abs_of_nonneg (by positivity)]
      have h2 : (1 : ℚ) ≤ (img.naturalWidth : ℚ) ^ 2 := by nlinarith
      have h3 : (1 : ℚ) ≤ (img.naturalHeight : ℚ) ^ 2 := by nlinarith
      have h4 : (1 : ℚ) * 1 ≤ (img.naturalWidth : ℚ) ^ 2 * (img.naturalHeight : ℚ) ^ 2 :=
        mul_le_mul h2 h3 (by norm_num) (by positivity)
      unfold eps12
      nlinarith
    unfold solveAffineTransform
    rw [show (syncGCPs img (syncCorners rings)).length = 4 from rfl,
      if_neg (by norm_num), if_neg (by norm_num)]
    unfold solveCramer3
    rw [if_neg (not_lt.mpr hge), if_neg (not_lt.mpr hge)]
    simp only [Option.elim]
    exact ⟨_, rfl⟩
  · intro M hM
    rcases st with ⟨oi, il, ca⟩
    obtain rfl : oi = some img := himg
    obtain rfl : il = some lay := hlay
    have hred : syncImageFromPolygon ⟨some img, some lay, ca⟩ rings =
        syncCore img ⟨some img, some lay, ca⟩ rings := rfl
    constructor
    · intro src hsrc
      rw [hred]
      unfold syncCore
      rw [if_neg (by omega), if_pos hpar, hM]
      simp only [Option.elim]
      rw [hsrc]
    · intro hnone
      rw [hred]
      unfold syncCore
      rw [if_neg (by omega), if_pos hpar, hM]
      simp only [Option.elim]
      rw [hnone]

/-- Witness for C2 at a 1×1 image and an exact square edit. -/
theorem syncImageFromPolygon_parallelogram_sync_witness :
    syncImageFromPolygon
      ⟨some ⟨1, 1, [255, 255, 255, 255]⟩,
       some ⟨⟨1, 1, [255, 255, 255, 255]⟩, ⟨1, 0, 0, 0, 1, 0⟩, [], ⟨0, 0, 0, 0⟩⟩, none⟩
      [[(0, 0), (2, 0), (2, 2), (0, 2), (0, 0)]] =
    (⟨some ⟨1, 1, [255, 255, 255, 255]⟩,
      some ⟨⟨1, 1, [255, 255, 255, 255]⟩, ⟨1 / 2, 0, 0, 0, 1 / 2, 0⟩,
        [(0, 0), (2, 0), (2, 2), (0, 2)], ⟨0, 0, 2, 2⟩⟩,
      some ⟨2, 0, 0, 0, 2, 0⟩⟩, none) := by
  have hpar : isParallelogram (syncCorners [[(0, 0), (2, 0), (2, 2), (0, 2), (0, 0)]]) := by
    refine ⟨by norm_num [syncCorners], ?_⟩
    norm_num [syncCorners, hypotR]
  exact ((syncImageFromPolygon_parallelogram_sync _ _ _ _ rfl rfl (by norm_num)
      (by norm_num) (by norm_num) hpar).2 ⟨2, 0, 0, 0, 2, 0⟩
    (by norm_num [solveAffineTransform, solveCramer3, normalMat, normalVecX, normalVecY,
        det3, replaceCol0, replaceCol1, replaceCol2, syncGCPs, syncCorners, eps12,
        List.foldl, List.getD_cons_zero, List.getD_cons_succ, Option.elim])).1 _
    (by norm_num [createAffineCanvasSource, invertAffine, eps12, ringExtent])

/-- C2 counterexample.  Two concrete edits refute the claim as stated.
First, a degenerate collinear "quadrilateral" passes the midpoint
parallelogram check, the least-squares solve succeeds, yet the solved
matrix is singular, createAffineCanvasSource throws, and the session matrix
is NOT replaced.  Second, a slightly perturbed rectangle inside the check's
tolerance is synced, but the installed footprint is the edited ring itself,
which differs from the ring the footprint projector would derive from the
new matrix — no projector re-derivation happens. -/
theorem syncImageFromPolygon_claim_cex :
    (isParallelogram (syncCorners [[(0, 0), (1, 0), (2, 0), (1, 0), (0, 0)]]) ∧
     solveAffineTransform (syncGCPs ⟨1, 1, [255, 255, 255, 255]⟩
         (syncCorners [[(0, 0), (1, 0), (2, 0), (1, 0), (0, 0)]])) =
       some ⟨1, 1, 0, 0, 0, 0⟩ ∧
     invertAffine ⟨1, 1, 0, 0, 0, 0⟩ = none ∧
     syncImageFromPolygon
       ⟨some ⟨1, 1, [255, 255, 255, 255]⟩,
        some ⟨⟨1, 1, [255, 255, 255, 255]⟩, ⟨1, 0, 0, 0, 1, 0⟩, [], ⟨0, 0, 0, 0⟩⟩, none⟩
       [[(0, 0), (1, 0), (2, 0), (1, 0), (0, 0)]] =
     (⟨some ⟨1, 1, [255, 255, 255, 255]⟩,
       some ⟨⟨1, 1, [255, 255, 255, 255]⟩, ⟨1, 0, 0, 0, 1, 0⟩, [], ⟨0, 0, 0, 0⟩⟩, none⟩,
      some .syncFailed)) ∧
    (isParallelogram (syncCorners [[(0, 0), (10, 0), (10, 10), (1 / 1000, 10), (0, 0)]]) ∧
     solveAffineTransform (syncGCPs ⟨1, 1, [255, 255, 255, 255]⟩
         (syncCorners [[(0, 0), (10, 0), (10, 10), (1 / 1000, 10), (0, 0)]])) =
       some ⟨19999 / 2000, 1 / 2000, 1 / 4000, 0, 10, 0⟩ ∧
     syncImageFromPolygon
       ⟨some ⟨1, 1, [255, 255, 255, 255]⟩,
        some ⟨⟨1, 1, [255, 255, 255, 255]⟩, ⟨1, 0, 0, 0, 1, 0⟩, [], ⟨0, 0, 0, 0⟩⟩, none⟩
       [[(0, 0), (10, 0), (10, 10), (1 / 1000, 10), (0, 0)]] =
     (⟨some ⟨1, 1, [255, 255, 255, 255]⟩,
       some ⟨⟨1, 1, [255, 255, 255, 255]⟩,
         ⟨2000 / 19999, -(1 / 199990), -(1 / 39998), 0, 1 / 10, 0⟩,
         [(0, 0), (10, 0), (10, 10), (1 / 1000, 10)], ⟨0, 0, 10, 10⟩⟩,
       some ⟨19999 / 2000, 1 / 2000, 1 / 4000, 0, 10, 0⟩⟩, none) ∧
     [(0, 0), (10, 0), (10, 10), ((1 / 1000 : ℚ), (10 : ℚ))] ≠
       (createProxyPolygonFromAffine ⟨19999 / 2000, 1 / 2000, 1 / 4000, 0, 10, 0⟩ 1 1).dropLast) := by
  have hparD : isParallelogram (syncCorners [[(0, 0), (1, 0), (2, 0), (1, 0), (0, 0)]]) := by
    refine ⟨by norm_num [syncCorners], ?_⟩
    norm_num [syncCorners, hypotR]
  have hsolveD : solveAffineTransform (syncGCPs ⟨1, 1, [255, 255, 255, 255]⟩
      (syncCorners [[(0, 0), (1, 0), (2, 0), (1, 0), (0, 0)]])) =
      some ⟨1, 1, 0, 0, 0, 0⟩ := by
    norm_num [solveAffineTransform, solveCramer3, normalMat, normalVecX, normalVecY,
      det3, replaceCol0, replaceCol1, replaceCol2, syncGCPs, syncCorners, eps12,
      List.foldl, List.getD_cons_zero, List.getD_cons_succ, Option.elim]
  have hinvD : invertAffine (⟨1, 1, 0, 0, 0, 0⟩ : AffineMatrix) = none := by
    norm_num [invertAffine, eps12]
  have hcreateD : createAffineCanvasSource ⟨1, 1, [255, 255, 255, 255]⟩
      ⟨1, 1, 0, 0, 0, 0⟩ [(0, 0), (1, 0), (2, 0), (1, 0), (0, 0)] = none := by
    rw [createAffineCanvasSource, hinvD]
    rfl
  have hparP : isParallelogram
      (syncCorners [[(0, 0), (10, 0), (10, 10), (1 / 1000, 10), (0, 0)]]) := by
    refine ⟨by norm_num [syncCorners], ?_⟩
    simp only [syncCorners, List.getD_cons_zero, List.getD_cons_succ]
    norm_num
    have hnum : hypotR (-(1 / 1000)) 0 = 1 / 1000 := by
      unfold hypotR
      rw [show ((((-(1 / 1000) : ℚ)) : ℝ) ^ 2 + (((0 : ℚ)) : ℝ) ^ 2) =
        ((1 / 1000 : ℝ)) ^ 2 by push_cast; ring]
      exact Real.sqrt_sq (by norm_num)
    have hd1 : (14 : ℝ) ≤ hypotR 10 10 := by
      unfold hypotR
      rw [show ((((10 : ℚ)) : ℝ) ^ 2 + (((10 : ℚ)) : ℝ) ^ 2) = (200 : ℝ) by norm_num]
      exact (Real.le_sqrt (by norm_num) (by norm_num)).mpr (by norm_num)
    have hd2 : (0 : ℝ) ≤ hypotR (-(9999 / 1000)) 10 := Real.sqrt_nonneg _
    have hden : (14 : ℝ) ≤ max 1 (hypotR 10 10 + hypotR (-(9999 / 1000)) 10) :=
      le_trans (by linarith) (le_max_right _ _)
    have hdenpos : (0 : ℝ) < max 1 (hypotR 10 10 + hypotR (-(9999 / 1000)) 10) :=
      lt_of_lt_of_le (by norm_num) hden
    rw [hnum, div_lt_iff₀ hdenpos]
    nlinarith
  have hsolveP : solveAffineTransform (syncGCPs ⟨1, 1, [255, 255, 255, 255]⟩
      (syncCorners [[(0, 0), (10, 0), (10, 10), (1 / 1000, 10), (0, 0)]])) =
      some ⟨19999 / 2000, 1 / 2000, 1 / 4000, 0, 10, 0⟩ := by
    norm_num [solveAffineTransform, solveCramer3, normalMat, normalVecX, normalVecY,
      det3, replaceCol0, replaceCol1, replaceCol2, syncGCPs, syncCorners, eps12,
      List.foldl, List.getD_cons_zero, List.getD_cons_succ, Option.elim]
  have hcreateP : createAffineCanvasSource ⟨1, 1, [255, 255, 255, 255]⟩
      ⟨19999 / 2000, 1 / 2000, 1 / 4000, 0, 10, 0⟩
      [(0, 0), (10, 0), (10, 10), (1 / 1000, 10), (0, 0)] =
      some ⟨⟨1, 1, [255, 255, 255, 255]⟩,
        ⟨2000 / 19999, -(1 / 199990), -(1 / 39998), 0, 1 / 10, 0⟩,
        [(0, 0), (10, 0), (10, 10), (1 / 1000, 10)], ⟨0, 0, 10, 10⟩⟩ := by
    norm_num [createAffineCanvasSource, invertAffine, eps12, ringExtent,
      show |(19999 / 200 : ℚ)| = 19999 / 200 from abs_of_pos (by norm_num)]
  refine ⟨⟨hparD, hsolveD, hinvD, ?_⟩, ⟨hparP, hsolveP, ?_, ?_⟩⟩
  · have hred : syncImageFromPolygon
        ⟨some ⟨1, 1, [255, 255, 255, 255]⟩,
         some ⟨⟨1, 1, [255, 255, 255, 255]⟩, ⟨1, 0, 0, 0, 1, 0⟩, [], ⟨0, 0, 0, 0⟩⟩, none⟩
        [[(0, 0), (1, 0), (2, 0), (1, 0), (0, 0)]] =
        syncCore ⟨1, 1, [255, 255, 255, 255]⟩
        ⟨some ⟨1, 1, [255, 255, 255, 255]⟩,
         some ⟨⟨1, 1, [255, 255, 255, 255]⟩, ⟨1, 0, 0, 0, 1, 0⟩, [], ⟨0, 0, 0, 0⟩⟩, none⟩
        [[(0, 0), (1, 0), (2, 0), (1, 0), (0, 0)]] := rfl
    rw [hred]
    unfold syncCore
    simp only [List.headD_cons]
    rw [if_neg (by norm_num), if_pos hparD, hsolveD]
    simp only [Option.elim]
    rw [hcreateD]
  · have hred : syncImageFromPolygon
        ⟨some ⟨1, 1, [255, 255, 255, 255]⟩,
         some ⟨⟨1, 1, [255, 255, 255, 255]⟩, ⟨1, 0, 0, 0, 1, 0⟩, [], ⟨0, 0, 0, 0⟩⟩, none⟩
        [[(0, 0), (10, 0), (10, 10), (1 / 1000, 10), (0, 0)]] =
        syncCore ⟨1, 1, [255, 255, 255, 255]⟩
        ⟨some ⟨1, 1, [255, 255, 255, 255]⟩,
         some ⟨⟨1, 1, [255, 255, 255, 255]⟩, ⟨1, 0, 0, 0, 1, 0⟩, [], ⟨0, 0, 0, 0⟩⟩, none⟩
        [[(0, 0), (10, 0), (10, 10), (1 / 1000, 10), (0, 0)]] := rfl
    rw [hred]
    unfold syncCore
    simp only [List.headD_cons]
    rw [if_neg (by norm_num), if_pos hparP, hsolveP]
    simp only [Option.elim]
    rw [hcreateP]
  · norm_num [createProxyPolygonFromAffine, Prod.ext_iff]

end OlCtrl
